import Mathlib

/-!
Verification of the queue state machine and ticket-ordering engine of the
Q-Tech walk-in service queue manager.

The backend stores services, counters, queue entries and an append-only
action log in a relational store.  We embed the store as explicit Lean
state and each controller / model operation as a pure function on that
state, translated statement by statement from

  * backend/models/Queue.js      (class `Queue`)
  * backend/models/Counter.js    (class `Counter`)
  * backend/controllers/queueController.js
  * backend/controllers/counterController.js

Role checks (`req.user.role`) are performed by the auth middleware before
the modelled code runs and are outside the modelled core, so the embedded
operations start after authentication.  WebSocket emissions are
fire-and-forget side effects with no influence on the store and are not
modelled.  `NOW()` is modelled by a logical clock `now : Nat` on the
state, bumped after each admission, and `DATE(requested_at)` by a `day`
string stored on each entry together with a `today` string on the state.
-/

namespace QTech

/-- Status of a queue entry, the `status` column of `queue_entries`. -/
inductive QStatus where
  | waiting
  | called
  | serving
  | completed
  | cancelled
deriving DecidableEq, Repr

/-- Status of a counter, the `status` column of `counters`
(`open`, `busy`, `closed`, `break`). -/
inductive CStatus where
  | copen
  | cbusy
  | cclosed
  | cbreak
deriving DecidableEq, Repr

/-- A terminal queue-entry status: `completed` or `cancelled`. -/
def QStatus.terminal : QStatus → Bool
  | .completed => true
  | .cancelled => true
  | _ => false

/-- A row of the `services` table, restricted to the columns the modelled
core reads.  `queuePfx` is the `queue_prefix` column with SQL `NULL`
coalesced to the empty string, exactly as every modelled query reads it
(`COALESCE(queue_prefix, '')`).  `estTime` is `estimated_service_time`;
the JS code treats a missing or zero value via the falsy default `|| 5`,
so `NULL` is modelled as `0` (both are falsy). -/
structure Service where
  id : Nat
  name : String
  queuePfx : String
  estTime : Nat
  isActive : Bool
deriving DecidableEq, Repr

/-- A row of the `counters` table, restricted to the columns the modelled
core reads. -/
structure Counter where
  id : Nat
  serviceId : Nat
  status : CStatus
  currentServingQueueId : Option Nat
  isActive : Bool
deriving DecidableEq, Repr

/-- A row of the `queue_entries` table. -/
structure QueueEntry where
  id : Nat
  userId : Nat
  serviceId : Nat
  queueNumber : String
  queuePosition : Nat
  status : QStatus
  counterId : Option Nat
  requestedAt : Nat
  day : String
  calledAt : Option Nat
  startedServingAt : Option Nat
  completedAt : Option Nat
  cancelledAt : Option Nat
  estimatedWaitTime : Nat
deriving DecidableEq, Repr

/-- A row of the append-only `queue_logs` table
(written by `Queue.logQueueAction`). -/
structure LogRow where
  queueEntryId : Nat
  serviceId : Nat
  counterId : Option Nat
  action : String
deriving DecidableEq, Repr

/-- The embedded store plus ambient context: the four tables (users kept
as bare ids, only needed for SQL `JOIN users`), the maintenance flag read
from `system_settings`, the current day (`CURRENT_DATE` /
`toISOString().split('T')[0]`), the logical clock for `NOW()`, and the
serial column feeding `queue_entries.id`. -/
structure St where
  services : List Service
  counters : List Counter
  entries : List QueueEntry
  logs : List LogRow
  users : List Nat
  maintenance : Bool
  today : String
  now : Nat
  nextId : Nat
deriving DecidableEq, Repr

/-- Error outcomes of the modelled operations; each constructor is one
early-return / thrown-error path of the JS code, tagged with the message
it carries there. -/
inductive Err where
  /-- requestQueue: maintenance mode (503, `SystemUnavailable`). -/
  | systemUnavailable
  /-- requestQueue: `Service not found or inactive` (404). -/
  | serviceNotFound
  /-- requestQueue: `You already have an active queue for this service`
  (400, `DuplicateActiveTicket`). -/
  | duplicateActiveTicket
  /-- callNext / startServing / completeService: `Counter not found` (404). -/
  | counterNotFound
  /-- callNext: `Counter is closed` (400). -/
  | counterClosed
  /-- callNext: `No waiting queues available` (404). -/
  | noWaitingQueue
  /-- startServing / completeService: `Queue entry not found` (404). -/
  | queueNotFound
  /-- startServing / completeService:
  `Queue entry is not assigned to this counter` (400, `CounterMismatch`). -/
  | counterMismatch
  /-- Queue.cancel: `Queue entry not found or access denied` (thrown). -/
  | cancelNotFoundOrDenied
  /-- Queue.cancel: `Queue entry cannot be cancelled` (thrown,
  `InvalidTransition`). -/
  | cannotCancel
  /-- A store query threw (caught by the controller catch block, 500). -/
  | storeFailure
deriving DecidableEq, Repr

/-! ### JavaScript string primitives used by `generateQueueNumber`

These are written over the character list underlying the string so that
every definition evaluates by kernel reduction on concrete inputs. -/

/-- JS `s.trim()`: strip leading and trailing whitespace. -/
def jsTrim (s : String) : String :=
  String.mk
    (((s.toList.dropWhile Char.isWhitespace).reverse.dropWhile
        Char.isWhitespace).reverse)

/-- JS `s.toUpperCase()` on the ASCII strings the sequencer handles. -/
def jsToUpper (s : String) : String :=
  String.mk (s.toList.map Char.toUpper)

/-- JS `s.substring(0, n)`. -/
def jsTake (s : String) (n : Nat) : String :=
  String.mk (s.toList.take n)

/-- JS `s.startsWith(p)` (what `LIKE 'p%'` tests when `p` has no SQL
wildcard). -/
def jsStartsWith (s p : String) : Bool :=
  p.toList.isPrefixOf s.toList

/-- JS `s.split('-')`. -/
def jsSplitDash (s : String) : List String :=
  (s.toList.splitOn '-').map String.mk

/-- JS `s.substring(n)` (drop the first `n` characters). -/
def jsDrop (s : String) (n : Nat) : String :=
  String.mk (s.toList.drop n)

/-- Numeric value of a list of decimal digit characters. -/
def natOfDigits (l : List Char) : Nat :=
  l.foldl (fun acc c => acc * 10 + (c.toNat - 48)) 0

/-- JS `parseInt(s)` restricted to base 10 and non-negative input, as the
code applies it to a dash-separated segment of a queue number: skip
leading whitespace, read the maximal run of leading digits; `none` models
`NaN` (no leading digit). -/
def parseIntJS (s : String) : Option Nat :=
  let ds := (jsTrim s).toList.takeWhile Char.isDigit
  if ds.isEmpty then none else some (natOfDigits ds)

/-- JS `String(n).padStart(3, '0')` for a non-negative number `n`. -/
def padStart3 (n : Nat) : String :=
  let s := toString n
  String.mk (List.replicate (3 - s.toList.length) '0') ++ s

/-- Render the JS number `nextNumber` (possibly `NaN`, modelled `none`)
the way the template literal does: `String(NaN)` is `"NaN"` and
`"NaN".padStart(3,'0')` is `"NaN"` again (length 3). -/
def renderNextNumber : Option Nat → String
  | some n => padStart3 n
  | none => "NaN"

/-! ### Queue model (backend/models/Queue.js) -/

/-- Prefix selection of `Queue.generateQueueNumber`: the configured
`queue_prefix` when truthy and with truthy trim (so: non-blank), trimmed
and upper-cased; otherwise `name.substring(0, 3).toUpperCase()`. -/
def pfxOfService (sv : Service) : String :=
  if jsTrim sv.queuePfx ≠ "" then jsToUpper (jsTrim sv.queuePfx)
  else jsToUpper (jsTake sv.name 3)

/-- Rows matched by the `lastNumberSql` query of
`Queue.generateQueueNumber`: same service, requested today, and
`queue_number LIKE 'PFX-%'` (the modelled prefixes contain no SQL
wildcard, so LIKE is a `startsWith` test). -/
def matchingToday (s : St) (serviceId : Nat) (pfx : String) : List QueueEntry :=
  s.entries.filter (fun e =>
    e.serviceId == serviceId && e.day == s.today
      && jsStartsWith e.queueNumber (pfx ++ "-"))

/-- ORDER BY id DESC LIMIT 1: the row with the greatest `id` (later list
position wins a tie, though ids are unique in the store). -/
def lastById (l : List QueueEntry) : Option QueueEntry :=
  l.foldl (fun acc e =>
    match acc with
    | none => some e
    | some m => if m.id ≤ e.id then some e else some m) none

/-- `Queue.generateQueueNumber(serviceId)`: look up the service (throwing
`Service not found` when absent), pick the prefix, fetch the latest
matching entry of today by `ORDER BY id DESC LIMIT 1`, split its number
on `'-'`, `parseInt` the second segment, add one (starting from 1 when
there is no row), and render `PFX-` followed by the 3-zero-padded
number. -/
def generateQueueNumber (s : St) (serviceId : Nat) : Except Err String :=
  match s.services.find? (fun sv => sv.id == serviceId) with
  | none => .error .serviceNotFound
  | some sv =>
    let pfx := pfxOfService sv
    let nextNumber : Option Nat :=
      match lastById (matchingToday s serviceId pfx) with
      | none => some 1
      | some e =>
        (parseIntJS ((jsSplitDash e.queueNumber).getD 1 "")).map (· + 1)
    .ok (pfx ++ "-" ++ renderNextNumber nextNumber)

/-- `Queue.calculateQueuePosition(serviceId)`: count of entries of the
service in `waiting` status with `requested_at < NOW()`, plus one. -/
def calculateQueuePosition (s : St) (serviceId : Nat) : Nat :=
  (s.entries.filter (fun e =>
    e.serviceId == serviceId && e.status == QStatus.waiting
      && e.requestedAt < s.now)).length + 1

/-- `Queue.findById(id)`: the entry row joined to its service and user
rows (an inner JOIN: the entry is invisible when either is missing). -/
def queueFindById (s : St) (qid : Nat) : Option QueueEntry :=
  (s.entries.find? (fun e => e.id == qid)).bind (fun e =>
    if s.services.any (fun sv => sv.id == e.serviceId)
        && s.users.any (fun u => u == e.userId)
    then some e else none)

/-- `Counter.findById(id)`: the counter row joined to its service row. -/
def counterFindById (s : St) (cid : Nat) : Option Counter :=
  (s.counters.find? (fun c => c.id == cid)).bind (fun c =>
    if s.services.any (fun sv => sv.id == c.serviceId) then some c else none)

/-- `Queue.findByUserAndService(userId, serviceId)`: first entry of the
user for the service whose status is in (`waiting`, `called`,
`serving`). -/
def findByUserAndService (s : St) (uid serviceId : Nat) : Option QueueEntry :=
  s.entries.find? (fun e =>
    e.userId == uid && e.serviceId == serviceId
      && (e.status == QStatus.waiting || e.status == QStatus.called
            || e.status == QStatus.serving))

/-- Strict lexicographic comparison on (queue_position, requested_at),
the sort key of `ORDER BY queue_position ASC, requested_at ASC`. -/
def keyLtb (a b : QueueEntry) : Bool :=
  a.queuePosition < b.queuePosition
    || (a.queuePosition == b.queuePosition && a.requestedAt < b.requestedAt)

/-- LIMIT 1 under that ORDER BY: an entry with minimal key (the earliest
stored row among key ties). -/
def selectMin : List QueueEntry → Option QueueEntry
  | [] => none
  | e :: es => some (es.foldl (fun m x => if keyLtb x m then x else m) e)

/-- `Counter.getNextWaitingQueue(serviceId)`: the `waiting` entry of the
service minimal in (queue_position, requested_at). -/
def getNextWaitingQueue (s : St) (serviceId : Nat) : Option QueueEntry :=
  selectMin (s.entries.filter (fun e =>
    e.serviceId == serviceId && e.status == QStatus.waiting))

/-- `Counter.setCurrentServing(counterId, queueEntryId)`: single-row
UPDATE of `current_serving_queue_id`. -/
def setCurrentServing (s : St) (cid : Nat) (v : Option Nat) : St :=
  { s with counters := s.counters.map (fun c =>
      if c.id == cid then { c with currentServingQueueId := v } else c) }

/-- `Counter.updateStatus(counterId, status)`: single-row UPDATE of the
counter status (the JS allowed-status check always passes for a value of
the status enum). -/
def updateCounterStatus (s : St) (cid : Nat) (st : CStatus) : St :=
  { s with counters := s.counters.map (fun c =>
      if c.id == cid then { c with status := st } else c) }

/-- `Queue.logQueueAction(queueEntryId, serviceId, counterId, action)`:
INSERT one row into `queue_logs`. -/
def logAction (s : St) (qid serviceId : Nat) (cid : Option Nat)
    (action : String) : St :=
  { s with logs := s.logs ++ [⟨qid, serviceId, cid, action⟩] }

/-- `Queue.create({userId, serviceId})`: generate the queue number,
compute the position, read the service's `estimated_service_time`
(`rows[0]?.estimated_service_time || 5`, so zero or missing falls back
to 5), INSERT the entry in `waiting` status with
`estimated_wait_time = resolved × position`, and log `created`.  The
logical clock is bumped after the INSERT so later `NOW()` reads see the
new row's `requested_at` in the past. -/
def queueCreate (s : St) (uid serviceId : Nat) : Except Err QueueEntry × St :=
  match generateQueueNumber s serviceId with
  | .error err => (.error err, s)
  | .ok qn =>
    let pos := calculateQueuePosition s serviceId
    let est :=
      match s.services.find? (fun sv => sv.id == serviceId) with
      | some sv => sv.estTime
      | none => 0
    let resolved := if est == 0 then 5 else est
    let e : QueueEntry :=
      { id := s.nextId, userId := uid, serviceId := serviceId,
        queueNumber := qn, queuePosition := pos, status := QStatus.waiting,
        counterId := none, requestedAt := s.now, day := s.today,
        calledAt := none, startedServingAt := none, completedAt := none,
        cancelledAt := none, estimatedWaitTime := resolved * pos }
    let s1 := { s with entries := s.entries ++ [e],
                       nextId := s.nextId + 1, now := s.now + 1 }
    (.ok e, logAction s1 e.id serviceId none "created")

/-- `requestQueue` (queueController): maintenance-mode gate, service
lookup with `is_active` check, duplicate-active-ticket gate, then
`Queue.create`. -/
def requestQueue (s : St) (uid serviceId : Nat) : Except Err QueueEntry × St :=
  if s.maintenance then (.error .systemUnavailable, s)
  else
    match s.services.find? (fun sv => sv.id == serviceId) with
    | none => (.error .serviceNotFound, s)
    | some sv =>
      if !sv.isActive then (.error .serviceNotFound, s)
      else
        match findByUserAndService s uid serviceId with
        | some _ => (.error .duplicateActiveTicket, s)
        | none => queueCreate s uid serviceId

/-- `callNext` (counterController), with the store writes made explicit:
after the guards (counter found, counter not `closed`, a waiting entry
exists) the code performs four separate awaited store writes with no
surrounding transaction — the queue-entry UPDATE, `setCurrentServing`,
`updateStatus('busy')`, and the log INSERT.  `fuel` is the number of
writes the store completes before failing; a failed write throws, is
caught by the controller's catch block and reported as a 500 error,
leaving the earlier writes committed.  `fuel ≥ 4` is the run in which
the store never fails. -/
def callNextFuel (s : St) (cid : Nat) (fuel : Nat) :
    Except Err QueueEntry × St :=
  match counterFindById s cid with
  | none => (.error .counterNotFound, s)
  | some counter =>
    if counter.status == CStatus.cclosed then (.error .counterClosed, s)
    else
      match getNextWaitingQueue s counter.serviceId with
      | none => (.error .noWaitingQueue, s)
      | some nq =>
        if fuel == 0 then (.error .storeFailure, s) else
        let s1 := { s with entries := s.entries.map (fun e =>
          if e.id == nq.id then
            { e with status := QStatus.called, counterId := some cid,
                     calledAt := some s.now }
          else e) }
        let updatedQueue :=
          { nq with status := QStatus.called, counterId := some cid,
                    calledAt := some s.now }
        if fuel == 1 then (.error .storeFailure, s1) else
        let s2 := setCurrentServing s1 cid (some nq.id)
        if fuel == 2 then (.error .storeFailure, s2) else
        let s3 := updateCounterStatus s2 cid CStatus.cbusy
        if fuel == 3 then (.error .storeFailure, s3) else
        (.ok updatedQueue, logAction s3 nq.id counter.serviceId (some cid) "called")

/-- `callNext` in the run where every store write succeeds. -/
def callNext (s : St) (cid : Nat) : Except Err QueueEntry × St :=
  callNextFuel s cid 4

/-- `startServing` (counterController): counter lookup, entry lookup,
the assignment guard `queueEntry.counter_id !== parseInt(counterId)`,
then the UPDATE to `serving` with `started_serving_at = NOW()` and the
`started` log row.  The entry's current status is never read. -/
def startServing (s : St) (cid qid : Nat) : Except Err QueueEntry × St :=
  match counterFindById s cid with
  | none => (.error .counterNotFound, s)
  | some counter =>
    match queueFindById s qid with
    | none => (.error .queueNotFound, s)
    | some qe =>
      if qe.counterId ≠ some cid then (.error .counterMismatch, s)
      else
        let s1 := { s with entries := s.entries.map (fun e =>
          if e.id == qid then
            { e with status := QStatus.serving,
                     startedServingAt := some s.now }
          else e) }
        (.ok { qe with status := QStatus.serving,
                       startedServingAt := some s.now },
         logAction s1 qid counter.serviceId (some cid) "started")

/-- `completeService` (counterController): same guards as
`startServing`, then the UPDATE to `completed` with
`completed_at = NOW()`, `setCurrentServing(counterId, null)`,
`updateStatus('open')` and the `completed` log row.  The entry's current
status is never read. -/
def completeService (s : St) (cid qid : Nat) : Except Err QueueEntry × St :=
  match counterFindById s cid with
  | none => (.error .counterNotFound, s)
  | some counter =>
    match queueFindById s qid with
    | none => (.error .queueNotFound, s)
    | some qe =>
      if qe.counterId ≠ some cid then (.error .counterMismatch, s)
      else
        let s1 := { s with entries := s.entries.map (fun e =>
          if e.id == qid then
            { e with status := QStatus.completed,
                     completedAt := some s.now }
          else e) }
        let s2 := setCurrentServing s1 cid none
        let s3 := updateCounterStatus s2 cid CStatus.copen
        (.ok { qe with status := QStatus.completed,
                       completedAt := some s.now },
         logAction s3 qid counter.serviceId (some cid) "completed")

/-- `Queue.cancel(queueId, userId)` as called from `cancelQueue`: the
ownership lookup (`WHERE id = $1 AND user_id = $2`), the
terminal-status guard, then the UPDATE to `cancelled` with
`cancelled_at = NOW()` (the UPDATE itself filters on id only) and the
`cancelled` log row carrying the entry's counter id. -/
def cancelQueue (s : St) (qid uid : Nat) : Except Err QueueEntry × St :=
  match s.entries.find? (fun e => e.id == qid && e.userId == uid) with
  | none => (.error .cancelNotFoundOrDenied, s)
  | some q =>
    if q.status == QStatus.completed || q.status == QStatus.cancelled then
      (.error .cannotCancel, s)
    else
      let s1 := { s with entries := s.entries.map (fun e =>
        if e.id == qid then
          { e with status := QStatus.cancelled, cancelledAt := some s.now }
        else e) }
      (.ok { q with status := QStatus.cancelled, cancelledAt := some s.now },
       logAction s1 qid q.serviceId q.counterId "cancelled")

/-- Two concurrent `requestQueue` executions for the same service,
interleaved so that both read phases (maintenance check, service lookup,
duplicate check, `generateQueueNumber`, `calculateQueuePosition`,
service-time read) complete against the starting state before either
INSERT lands.  Every step of the JS code is a separately awaited store
round-trip and nothing locks the service row, so this schedule is
realizable.  The serial id column still hands out distinct ids to the
two INSERTs. -/
def requestQueueRace (s : St) (uid1 uid2 serviceId : Nat) :
    Except Err (QueueEntry × QueueEntry) × St :=
  if s.maintenance then (.error .systemUnavailable, s)
  else
    match s.services.find? (fun sv => sv.id == serviceId) with
    | none => (.error .serviceNotFound, s)
    | some sv =>
      if !sv.isActive then (.error .serviceNotFound, s)
      else if (findByUserAndService s uid1 serviceId).isSome
            || (findByUserAndService s uid2 serviceId).isSome then
        (.error .duplicateActiveTicket, s)
      else
        match generateQueueNumber s serviceId with
        | .error err => (.error err, s)
        | .ok qn1 =>
          match generateQueueNumber s serviceId with
          | .error err => (.error err, s)
          | .ok qn2 =>
            let pos1 := calculateQueuePosition s serviceId
            let pos2 := calculateQueuePosition s serviceId
            let resolved := if sv.estTime == 0 then 5 else sv.estTime
            let e1 : QueueEntry :=
              { id := s.nextId, userId := uid1, serviceId := serviceId,
                queueNumber := qn1, queuePosition := pos1,
                status := QStatus.waiting, counterId := none,
                requestedAt := s.now, day := s.today, calledAt := none,
                startedServingAt := none, completedAt := none,
                cancelledAt := none, estimatedWaitTime := resolved * pos1 }
            let e2 : QueueEntry :=
              { e1 with id := s.nextId + 1, userId := uid2,
                        queueNumber := qn2, queuePosition := pos2,
                        estimatedWaitTime := resolved * pos2 }
            let s1 := { s with entries := s.entries ++ [e1, e2],
                               nextId := s.nextId + 2, now := s.now + 1 }
            let s2 := logAction s1 e1.id serviceId none "created"
            (.ok (e1, e2), logAction s2 e2.id serviceId none "created")

/-! ### The spec's sequencing formula, for comparison with the code

The specification describes the ticket sequencer as: scan the day's
existing tickets of the service with the chosen PREFIX, find the highest
numeric suffix `max`, return `PREFIX-(max+1)` zero-padded to 3 digits
(`max = 0` when there are none).  The following definitions follow those
words; the prefix rule (configured prefix when non-blank, trimmed and
upper-cased, else first three letters of the name upper-cased) is the
same in spec and code and is reused from `pfxOfService`. -/

/-- Numeric suffix of a ticket number relative to a prefix: the number
after `PFX-` (0 when it does not parse). -/
def specSuffix (pfx : String) (e : QueueEntry) : Nat :=
  (parseIntJS (jsDrop e.queueNumber (pfx.toList.length + 1))).getD 0

/-- Highest numeric suffix among the day's matching tickets, 0 when
there are none. -/
def specMaxSuffix (s : St) (serviceId : Nat) (pfx : String) : Nat :=
  ((matchingToday s serviceId pfx).map (specSuffix pfx)).foldl max 0

/-- The sequencing contract as the spec states it:
`PREFIX-(max+1)` zero-padded to 3 digits. -/
def specNextTicketNumber (s : St) (serviceId : Nat) : Except Err String :=
  match s.services.find? (fun sv => sv.id == serviceId) with
  | none => .error .serviceNotFound
  | some sv =>
    let pfx := pfxOfService sv
    .ok (pfx ++ "-" ++ padStart3 (specMaxSuffix s serviceId pfx + 1))

/-- Projection of a queue entry to the fields frozen at admission
(id, queue_position, estimated_wait_time). -/
def frozenFields (e : QueueEntry) : Nat × Nat × Nat :=
  (e.id, e.queuePosition, e.estimatedWaitTime)

/-! ### Concrete fixtures -/

/-- A service named Registrar with no configured prefix and a 10-minute
estimated service time. -/
def svcREG : Service := ⟨1, "Registrar", "", 10, true⟩

/-- An open counter of service 1 serving nobody. -/
def ctrOpen1 : Counter := ⟨1, 1, CStatus.copen, none, true⟩

/-- Empty store: the Registrar service, one open counter, users 1 and 2,
no tickets yet. -/
def stBase : St := ⟨[svcREG], [ctrOpen1], [], [], [1, 2], false, "D1", 100, 1⟩

/-- A ticket of user 1 that was called to counter 1 and then cancelled
by its owner: `cancelled` status with `counter_id` still set. -/
def eCanc1 : QueueEntry :=
  ⟨1, 1, 1, "REG-001", 1, QStatus.cancelled, some 1, 100, "D1",
   some 101, none, none, some 101, 10⟩

/-- Store holding only the cancelled-after-called ticket `eCanc1`, its
counter still busy and still pointing at it (exactly the store produced
by request → callNext → cancel). -/
def stC1 : St :=
  ⟨[svcREG], [⟨1, 1, CStatus.cbusy, some 1, true⟩], [eCanc1], [], [1, 2],
   false, "D1", 102, 2⟩

/-- A service whose configured queue prefix contains a dash. -/
def svcDash : Service := ⟨7, "Alpha", "A-1", 10, true⟩

/-- Today's tickets `A-1-001` and `A-1-002` of the dash-prefix service,
exactly as two sequential admissions create them. -/
def stDash : St :=
  ⟨[svcDash], [],
   [⟨1, 1, 7, "A-1-001", 1, QStatus.waiting, none, 100, "D1",
     none, none, none, none, 10⟩,
    ⟨2, 2, 7, "A-1-002", 2, QStatus.waiting, none, 101, "D1",
     none, none, none, none, 20⟩],
   [], [1, 2], false, "D1", 102, 3⟩

/-- Today's tickets `REG-001` (called at counter 1) and `REG-002`
(waiting): counter 1 is `busy` and serving ticket 1. -/
def stBusy : St :=
  ⟨[svcREG], [⟨1, 1, CStatus.cbusy, some 1, true⟩],
   [⟨1, 1, 1, "REG-001", 1, QStatus.called, some 1, 100, "D1",
     some 102, none, none, none, 10⟩,
    ⟨2, 2, 1, "REG-002", 2, QStatus.waiting, none, 101, "D1",
     none, none, none, none, 20⟩],
   [], [1, 2], false, "D1", 103, 3⟩

/-- A ticket of user 1 currently being served at counter 1. -/
def stServing : St :=
  ⟨[svcREG], [⟨1, 1, CStatus.cbusy, some 1, true⟩],
   [⟨1, 1, 1, "REG-001", 1, QStatus.serving, some 1, 100, "D1",
     some 101, some 102, none, none, 10⟩],
   [], [1, 2], false, "D1", 103, 2⟩

/-- A service whose configured `estimated_service_time` is zero. -/
def svcZero : Service := ⟨3, "Zed", "", 0, true⟩

/-- Store holding only the zero-estimate service. -/
def stZero : St := ⟨[svcZero], [], [], [], [1], false, "D1", 100, 1⟩

/-- One waiting ticket `REG-001` and the open counter, ready for a
call. -/
def stWait : St :=
  ⟨[svcREG], [ctrOpen1],
   [⟨1, 1, 1, "REG-001", 1, QStatus.waiting, none, 100, "D1",
     none, none, none, none, 10⟩],
   [], [1, 2], false, "D1", 101, 2⟩

/-- Store used for maintenance-mode checks. -/
def stMaint : St := ⟨[svcREG], [ctrOpen1], [], [], [1, 2], true, "D1", 100, 1⟩

/-- The row INSERTed by `Queue.create` for a given resolved
estimated-service-time `est` and generated number `qn` (spelled out once
so that statements about the admission postcondition stay readable). -/
def mkEntry (s : St) (uid serviceId est : Nat) (qn : String) : QueueEntry :=
  { id := s.nextId, userId := uid, serviceId := serviceId, queueNumber := qn,
    queuePosition := calculateQueuePosition s serviceId,
    status := QStatus.waiting, counterId := none, requestedAt := s.now,
    day := s.today, calledAt := none, startedServingAt := none,
    completedAt := none, cancelledAt := none,
    estimatedWaitTime := est * calculateQueuePosition s serviceId }

/-- Step 1 of the single-active-ticket trace: user 1 requests a
Registrar ticket. -/
def c5s1 : St := (requestQueue stBase 1 1).2

/-- Step 2: counter 1 calls the ticket. -/
def c5s2 : St := (callNext c5s1 1).2

/-- Step 3: user 1 cancels the called ticket. -/
def c5s3 : St := (cancelQueue c5s2 1 1).2

/-- Step 4: user 1 requests a fresh ticket (the first one is terminal,
so the duplicate guard passes). -/
def c5s4 : St := (requestQueue c5s3 1 1).2

/-- The waiting `REG-001` ticket stored in `stWait`. -/
def wEntry : QueueEntry :=
  ⟨1, 1, 1, "REG-001", 1, QStatus.waiting, none, 100, "D1",
   none, none, none, none, 10⟩

/-- The serving `REG-001` ticket stored in `stServing`. -/
def eServ : QueueEntry :=
  ⟨1, 1, 1, "REG-001", 1, QStatus.serving, some 1, 100, "D1",
   some 101, some 102, none, none, 10⟩


/-! ### Order facts about the (queue_position, requested_at) sort key -/

/-- Unfolding of the strict key comparison. -/
theorem keyLtb_eq_true {a b : QueueEntry} : keyLtb a b = true ↔
    (a.queuePosition < b.queuePosition ∨
      (a.queuePosition = b.queuePosition ∧ a.requestedAt < b.requestedAt)) := by
  simp [keyLtb, Bool.or_eq_true, Bool.and_eq_true, decide_eq_true_eq, beq_iff_eq]

/-- The strict key comparison is irreflexive. -/
theorem keyLtb_irrefl (a : QueueEntry) : keyLtb a a = false := by
  rw [Bool.eq_false_iff, ne_eq, keyLtb_eq_true]
  omega

/-- The strict key comparison is transitive. -/
theorem keyLtb_trans {a b c : QueueEntry} (h1 : keyLtb a b = true)
    (h2 : keyLtb b c = true) : keyLtb a c = true := by
  rw [keyLtb_eq_true] at h1 h2 ⊢
  omega

/-- From b ≤ a (not a < b) and a < c conclude b < c. -/
theorem keyLtb_le_lt {a b c : QueueEntry} (h1 : keyLtb a b = false)
    (h2 : keyLtb a c = true) : keyLtb b c = true := by
  rw [Bool.eq_false_iff, ne_eq, keyLtb_eq_true] at h1
  rw [keyLtb_eq_true] at h2 ⊢
  omega

/-- The fold underlying `selectMin` returns a member that no element of
the traversed list strictly precedes. -/
theorem foldl_pick_spec : ∀ (l : List QueueEntry) (a : QueueEntry),
    (l.foldl (fun m x => if keyLtb x m then x else m) a ∈ a :: l) ∧
    (∀ y ∈ a :: l,
      keyLtb y (l.foldl (fun m x => if keyLtb x m then x else m) a) = false) := by
  intro l
  induction l with
  | nil =>
    intro a
    refine ⟨by simp, ?_⟩
    intro y hy
    simp only [List.foldl_nil, List.mem_singleton] at *
    subst hy
    exact keyLtb_irrefl y
  | cons x xs ih =>
    intro a
    simp only [List.foldl_cons]
    by_cases hxa : keyLtb x a = true
    · rw [if_pos hxa]
      obtain ⟨hmem, hmin⟩ := ih x
      refine ⟨?_, ?_⟩
      · rcases List.mem_cons.mp hmem with h | h
        · simp [h]
        · simp [List.mem_cons, h]
      · intro y hy
        rcases List.mem_cons.mp hy with hya | hy2
        · subst hya
          have hxr := hmin x (List.mem_cons_self _ _)
          cases har : keyLtb y (xs.foldl (fun m x => if keyLtb x m then x else m) x)
          · rfl
          · exact absurd (keyLtb_trans hxa har) (by rw [hxr]; simp)
        · exact hmin y hy2
    · have hxa2 : keyLtb x a = false := by
        cases h : keyLtb x a
        · rfl
        · exact absurd h hxa
      rw [if_neg (by simp [hxa2])]
      obtain ⟨hmem, hmin⟩ := ih a
      refine ⟨?_, ?_⟩
      · rcases List.mem_cons.mp hmem with h | h
        · simp [h]
        · simp [List.mem_cons, h]
      · intro y hy
        rcases List.mem_cons.mp hy with hya | hy2
        · subst hya
          exact hmin y (List.mem_cons_self _ _)
        · rcases List.mem_cons.mp hy2 with hyx | hy3
          · subst hyx
            have har := hmin a (List.mem_cons_self _ _)
            cases hxr : keyLtb y (xs.foldl (fun m x => if keyLtb x m then x else m) a)
            · rfl
            · exact absurd (keyLtb_le_lt hxa2 hxr) (by rw [har]; simp)
          · exact hmin y (List.mem_cons.mpr (Or.inr hy3))

/-- `selectMin` returns a member of the list that no member strictly
precedes in the (queue_position, requested_at) order. -/
theorem selectMin_spec {l : List QueueEntry} {e : QueueEntry}
    (h : selectMin l = some e) :
    e ∈ l ∧ ∀ x ∈ l, keyLtb x e = false := by
  cases l with
  | nil => simp [selectMin] at h
  | cons a as =>
    simp only [selectMin, Option.some.injEq] at h
    obtain ⟨hmem, hmin⟩ := foldl_pick_spec as a
    rw [h] at hmem hmin
    exact ⟨hmem, hmin⟩

/-- `selectMin` answers on every non-empty list. -/
theorem selectMin_isSome {l : List QueueEntry} (h : l ≠ []) :
    (selectMin l).isSome = true := by
  cases l with
  | nil => exact absurd rfl h
  | cons a as => simp [selectMin]

/-! ### Facts about `lastById` (ORDER BY id DESC LIMIT 1) -/

/-- The fold underlying `lastById`, started on a non-empty accumulator,
returns a member whose id dominates the accumulator and the list. -/
theorem foldl_last_spec : ∀ (l : List QueueEntry) (a : QueueEntry),
    ∃ r, l.foldl (fun acc e =>
        match acc with
        | none => some e
        | some m => if m.id ≤ e.id then some e else some m) (some a) = some r ∧
      r ∈ a :: l ∧ ∀ x ∈ a :: l, x.id ≤ r.id := by
  intro l
  induction l with
  | nil =>
    intro a
    exact ⟨a, rfl, List.mem_cons_self _ _, by simp⟩
  | cons x xs ih =>
    intro a
    simp only [List.foldl_cons]
    by_cases hax : a.id ≤ x.id
    · rw [if_pos hax]
      obtain ⟨r, hr, hmem, hge⟩ := ih x
      refine ⟨r, hr, ?_, ?_⟩
      · rcases List.mem_cons.mp hmem with h | h
        · simp [h]
        · simp [List.mem_cons, h]
      · intro y hy
        rcases List.mem_cons.mp hy with hya | hy2
        · subst hya
          exact le_trans hax (hge x (List.mem_cons_self _ _))
        · exact hge y hy2
    · rw [if_neg hax]
      obtain ⟨r, hr, hmem, hge⟩ := ih a
      refine ⟨r, hr, ?_, ?_⟩
      · rcases List.mem_cons.mp hmem with h | h
        · simp [h]
        · simp [List.mem_cons, h]
      · intro y hy
        rcases List.mem_cons.mp hy with hya | hy2
        · subst hya
          exact hge y (List.mem_cons_self _ _)
        · rcases List.mem_cons.mp hy2 with hyx | hy3
          · subst hyx
            exact le_trans (by omega) (hge a (List.mem_cons_self _ _))
          · exact hge y (List.mem_cons.mpr (Or.inr hy3))

/-- `lastById` returns a member whose id dominates the whole list. -/
theorem lastById_spec {l : List QueueEntry} {m : QueueEntry}
    (h : lastById l = some m) : m ∈ l ∧ ∀ x ∈ l, x.id ≤ m.id := by
  cases l with
  | nil => simp [lastById] at h
  | cons a as =>
    simp only [lastById, List.foldl_cons] at h
    obtain ⟨r, hr, hmem, hge⟩ := foldl_last_spec as a
    rw [hr] at h
    cases h
    exact ⟨hmem, hge⟩

/-- `lastById` answers `none` only on the empty list. -/
theorem lastById_none {l : List QueueEntry} (h : lastById l = none) : l = [] := by
  cases l with
  | nil => rfl
  | cons a as =>
    simp only [lastById, List.foldl_cons] at h
    obtain ⟨r, hr, -, -⟩ := foldl_last_spec as a
    rw [hr] at h
    cases h

/-! ### Facts about `List.foldl max` -/

/-- The running maximum dominates its initial value. -/
theorem foldl_max_ge_init : ∀ (l : List Nat) (a : Nat), a ≤ l.foldl max a := by
  intro l
  induction l with
  | nil => intro a; simp
  | cons x xs ih =>
    intro a
    calc a ≤ max a x := le_max_left a x
    _ ≤ xs.foldl max (max a x) := ih (max a x)

/-- The running maximum dominates every member. -/
theorem foldl_max_ge_mem : ∀ (l : List Nat) (a : Nat), ∀ x ∈ l, x ≤ l.foldl max a := by
  intro l
  induction l with
  | nil => intro a x hx; simp at hx
  | cons y ys ih =>
    intro a x hx
    rcases List.mem_cons.mp hx with rfl | hx2
    · calc x ≤ max a x := le_max_right a x
      _ ≤ ys.foldl max (max a x) := foldl_max_ge_init ys (max a x)
    · exact ih (max a y) x hx2

/-- The running maximum is at most any common upper bound. -/
theorem foldl_max_le : ∀ (l : List Nat) (a v : Nat), a ≤ v → (∀ x ∈ l, x ≤ v) →
    l.foldl max a ≤ v := by
  intro l
  induction l with
  | nil =>
    intro a v h _
    simpa using h
  | cons y ys ih =>
    intro a v h h2
    simp only [List.foldl_cons]
    exact ih (max a y) v (max_le h (h2 y (List.mem_cons_self _ _)))
      (fun x hx => h2 x (List.mem_cons.mpr (Or.inr hx)))


/-! ### Branch equations of the operations

One equation per early-return / success path of each controller
operation, proved by unfolding the translated definition; all later
theorems case on these. -/

/-- callNext when the counter does not resolve. -/
theorem callNext_ctr_none_eq {s : St} {cid : Nat}
    (hc : counterFindById s cid = none) :
    callNext s cid = (.error .counterNotFound, s) := by
  unfold callNext callNextFuel
  rw [hc]

/-- callNext when the counter is closed. -/
theorem callNext_closed_eq {s : St} {cid : Nat} {c : Counter}
    (hc : counterFindById s cid = some c)
    (hcl : (c.status == CStatus.cclosed) = true) :
    callNext s cid = (.error .counterClosed, s) := by
  unfold callNext callNextFuel
  rw [hc]
  simp [hcl]

/-- callNext when no waiting entry exists for the counter's service. -/
theorem callNext_nowait_eq {s : St} {cid : Nat} {c : Counter}
    (hc : counterFindById s cid = some c)
    (hcl : (c.status == CStatus.cclosed) = false)
    (hnq : getNextWaitingQueue s c.serviceId = none) :
    callNext s cid = (.error .noWaitingQueue, s) := by
  unfold callNext callNextFuel
  rw [hc]
  simp [hcl, hnq]

/-- callNext on success: the four store writes in order. -/
theorem callNext_ok_eq {s : St} {cid : Nat} {c : Counter} {nq : QueueEntry}
    (hc : counterFindById s cid = some c)
    (hcl : (c.status == CStatus.cclosed) = false)
    (hnq : getNextWaitingQueue s c.serviceId = some nq) :
    callNext s cid =
      (.ok { nq with status := QStatus.called, counterId := some cid,
                     calledAt := some s.now },
       logAction (updateCounterStatus (setCurrentServing
           { s with entries := s.entries.map (fun x =>
               if x.id == nq.id then
                 { x with status := QStatus.called, counterId := some cid,
                          calledAt := some s.now }
               else x) } cid (some nq.id)) cid CStatus.cbusy)
         nq.id c.serviceId (some cid) "called") := by
  unfold callNext callNextFuel
  rw [hc]
  simp [hcl, hnq]

/-- Inversion of a successful callNext into its guards and writes. -/
theorem callNext_ok_shape {s : St} {cid : Nat} {e : QueueEntry} {s2 : St}
    (h : callNext s cid = (.ok e, s2)) :
    ∃ c nq, counterFindById s cid = some c ∧
      (c.status == CStatus.cclosed) = false ∧
      getNextWaitingQueue s c.serviceId = some nq ∧
      e = { nq with status := QStatus.called, counterId := some cid,
                    calledAt := some s.now } ∧
      s2 = logAction (updateCounterStatus (setCurrentServing
              { s with entries := s.entries.map (fun x =>
                  if x.id == nq.id then
                    { x with status := QStatus.called, counterId := some cid,
                             calledAt := some s.now }
                  else x) } cid (some nq.id)) cid CStatus.cbusy)
            nq.id c.serviceId (some cid) "called" := by
  cases hc : counterFindById s cid with
  | none =>
    rw [callNext_ctr_none_eq hc] at h
    simp at h
  | some c =>
    cases hcl : (c.status == CStatus.cclosed) with
    | true =>
      rw [callNext_closed_eq hc hcl] at h
      simp at h
    | false =>
      cases hnq : getNextWaitingQueue s c.serviceId with
      | none =>
        rw [callNext_nowait_eq hc hcl hnq] at h
        simp at h
      | some nq =>
        rw [callNext_ok_eq hc hcl hnq] at h
        simp only [Prod.mk.injEq, Except.ok.injEq] at h
        exact ⟨c, nq, rfl, hcl, hnq, h.1.symm, h.2.symm⟩

/-- Counter lookup is stable under a counter-table map that preserves id
and service (the services table unchanged). -/
theorem counterFindById_counters_map {s t : St} {cid : Nat} {c : Counter}
    {f : Counter → Counter}
    (hct : t.counters = s.counters.map f) (hsv : t.services = s.services)
    (hid : ∀ x, (f x).id = x.id) (hsid : ∀ x, (f x).serviceId = x.serviceId)
    (h : counterFindById s cid = some c) :
    counterFindById t cid = some (f c) := by
  unfold counterFindById at h ⊢
  rw [hct, hsv, List.find?_map]
  have hpred : ((fun c : Counter => c.id == cid) ∘ f) =
      (fun c : Counter => c.id == cid) := by
    funext x
    simp [Function.comp, hid]
  rw [hpred]
  cases hf : s.counters.find? (fun c => c.id == cid) with
  | none => rw [hf] at h; simp at h
  | some c0 =>
    rw [hf] at h
    simp only [Option.some_bind] at h
    simp only [Option.map_some', Option.some_bind, hsid c0]
    split at h
    · cases h
      simp [*]
    · simp at h

/-- cancelQueue when the (id, user) lookup misses. -/
theorem cancelQueue_find_none {s : St} {qid uid : Nat}
    (h : s.entries.find? (fun e => e.id == qid && e.userId == uid) = none) :
    cancelQueue s qid uid = (.error .cancelNotFoundOrDenied, s) := by
  unfold cancelQueue
  rw [h]

/-- cancelQueue on a terminal (completed / cancelled) entry. -/
theorem cancelQueue_terminal {s : St} {qid uid : Nat} {q : QueueEntry}
    (h : s.entries.find? (fun e => e.id == qid && e.userId == uid) = some q)
    (ht : (q.status == QStatus.completed || q.status == QStatus.cancelled) = true) :
    cancelQueue s qid uid = (.error .cannotCancel, s) := by
  unfold cancelQueue
  rw [h]
  simp [ht]

/-- cancelQueue on success: the UPDATE and the log INSERT. -/
theorem cancelQueue_ok_eq {s : St} {qid uid : Nat} {q : QueueEntry}
    (h : s.entries.find? (fun e => e.id == qid && e.userId == uid) = some q)
    (ht : (q.status == QStatus.completed || q.status == QStatus.cancelled) = false) :
    cancelQueue s qid uid =
      (.ok { q with status := QStatus.cancelled, cancelledAt := some s.now },
       logAction { s with entries := s.entries.map (fun e =>
           if e.id == qid then
             { e with status := QStatus.cancelled, cancelledAt := some s.now }
           else e) } qid q.serviceId q.counterId "cancelled") := by
  unfold cancelQueue
  rw [h]
  simp [ht]

/-- Inversion of a successful cancelQueue. -/
theorem cancelQueue_ok_shape {s : St} {qid uid : Nat} {e2 : QueueEntry} {s2 : St}
    (h : cancelQueue s qid uid = (.ok e2, s2)) :
    ∃ q, s.entries.find? (fun e => e.id == qid && e.userId == uid) = some q ∧
      (q.status == QStatus.completed || q.status == QStatus.cancelled) = false ∧
      e2 = { q with status := QStatus.cancelled, cancelledAt := some s.now } ∧
      s2 = logAction { s with entries := s.entries.map (fun e =>
          if e.id == qid then
            { e with status := QStatus.cancelled, cancelledAt := some s.now }
          else e) } qid q.serviceId q.counterId "cancelled" := by
  cases hf : s.entries.find? (fun e => e.id == qid && e.userId == uid) with
  | none =>
    rw [cancelQueue_find_none hf] at h
    simp at h
  | some q =>
    cases ht : (q.status == QStatus.completed || q.status == QStatus.cancelled) with
    | true =>
      rw [cancelQueue_terminal hf ht] at h
      simp at h
    | false =>
      rw [cancelQueue_ok_eq hf ht] at h
      simp only [Prod.mk.injEq, Except.ok.injEq] at h
      exact ⟨q, rfl, ht, h.1.symm, h.2.symm⟩


/-- startServing when the counter does not resolve. -/
theorem startServing_ctr_none {s : St} {cid qid : Nat}
    (hc : counterFindById s cid = none) :
    startServing s cid qid = (.error .counterNotFound, s) := by
  unfold startServing
  rw [hc]

/-- startServing when the queue entry does not resolve. -/
theorem startServing_q_none {s : St} {cid qid : Nat} {c : Counter}
    (hc : counterFindById s cid = some c)
    (hq : queueFindById s qid = none) :
    startServing s cid qid = (.error .queueNotFound, s) := by
  unfold startServing
  rw [hc]
  simp [hq]

/-- startServing when the entry is not assigned to the acting counter. -/
theorem startServing_mismatch {s : St} {cid qid : Nat} {c : Counter}
    {qe : QueueEntry}
    (hc : counterFindById s cid = some c)
    (hq : queueFindById s qid = some qe)
    (hm : qe.counterId ≠ some cid) :
    startServing s cid qid = (.error .counterMismatch, s) := by
  unfold startServing
  rw [hc]
  simp [hq, hm]

/-- startServing on success: the UPDATE to serving and the log INSERT
(no status guard appears here, mirroring the code). -/
theorem startServing_ok_eq {s : St} {cid qid : Nat} {c : Counter}
    {qe : QueueEntry}
    (hc : counterFindById s cid = some c)
    (hq : queueFindById s qid = some qe)
    (hm : qe.counterId = some cid) :
    startServing s cid qid =
      (.ok { qe with status := QStatus.serving, startedServingAt := some s.now },
       logAction { s with entries := s.entries.map (fun e =>
           if e.id == qid then
             { e with status := QStatus.serving, startedServingAt := some s.now }
           else e) } qid c.serviceId (some cid) "started") := by
  unfold startServing
  rw [hc]
  simp [hq, hm]

/-- completeService when the counter does not resolve. -/
theorem completeService_ctr_none {s : St} {cid qid : Nat}
    (hc : counterFindById s cid = none) :
    completeService s cid qid = (.error .counterNotFound, s) := by
  unfold completeService
  rw [hc]

/-- completeService when the queue entry does not resolve. -/
theorem completeService_q_none {s : St} {cid qid : Nat} {c : Counter}
    (hc : counterFindById s cid = some c)
    (hq : queueFindById s qid = none) :
    completeService s cid qid = (.error .queueNotFound, s) := by
  unfold completeService
  rw [hc]
  simp [hq]

/-- completeService when the entry is not assigned to the acting
counter. -/
theorem completeService_mismatch {s : St} {cid qid : Nat} {c : Counter}
    {qe : QueueEntry}
    (hc : counterFindById s cid = some c)
    (hq : queueFindById s qid = some qe)
    (hm : qe.counterId ≠ some cid) :
    completeService s cid qid = (.error .counterMismatch, s) := by
  unfold completeService
  rw [hc]
  simp [hq, hm]

/-- completeService on success: the UPDATE to completed, the counter
release, the status reset and the log INSERT (again no status guard). -/
theorem completeService_ok_eq {s : St} {cid qid : Nat} {c : Counter}
    {qe : QueueEntry}
    (hc : counterFindById s cid = some c)
    (hq : queueFindById s qid = some qe)
    (hm : qe.counterId = some cid) :
    completeService s cid qid =
      (.ok { qe with status := QStatus.completed, completedAt := some s.now },
       logAction (updateCounterStatus (setCurrentServing
           { s with entries := s.entries.map (fun e =>
               if e.id == qid then
                 { e with status := QStatus.completed, completedAt := some s.now }
               else e) } cid none) cid CStatus.copen)
         qid c.serviceId (some cid) "completed") := by
  unfold completeService
  rw [hc]
  simp [hq, hm]

/-- requestQueue under maintenance mode. -/
theorem requestQueue_maint {s : St} {uid sid : Nat} (h : s.maintenance = true) :
    requestQueue s uid sid = (.error .systemUnavailable, s) := by
  unfold requestQueue
  simp [h]

/-- requestQueue when the service does not resolve. -/
theorem requestQueue_svc_none {s : St} {uid sid : Nat}
    (h : s.maintenance = false)
    (hsv : s.services.find? (fun v => v.id == sid) = none) :
    requestQueue s uid sid = (.error .serviceNotFound, s) := by
  unfold requestQueue
  simp [h, hsv]

/-- requestQueue when the service is inactive. -/
theorem requestQueue_inactive {s : St} {uid sid : Nat} {sv : Service}
    (h : s.maintenance = false)
    (hsv : s.services.find? (fun v => v.id == sid) = some sv)
    (hact : sv.isActive = false) :
    requestQueue s uid sid = (.error .serviceNotFound, s) := by
  unfold requestQueue
  simp [h, hsv, hact]

/-- requestQueue when the user already holds an active entry. -/
theorem requestQueue_dup {s : St} {uid sid : Nat} {sv : Service} {q : QueueEntry}
    (h : s.maintenance = false)
    (hsv : s.services.find? (fun v => v.id == sid) = some sv)
    (hact : sv.isActive = true)
    (hdup : findByUserAndService s uid sid = some q) :
    requestQueue s uid sid = (.error .duplicateActiveTicket, s) := by
  unfold requestQueue
  simp [h, hsv, hact, hdup]

/-- requestQueue delegates to Queue.create once every gate passes. -/
theorem requestQueue_pass {s : St} {uid sid : Nat} {sv : Service}
    (h : s.maintenance = false)
    (hsv : s.services.find? (fun v => v.id == sid) = some sv)
    (hact : sv.isActive = true)
    (hdup : findByUserAndService s uid sid = none) :
    requestQueue s uid sid = queueCreate s uid sid := by
  unfold requestQueue
  simp [h, hsv, hact, hdup]

/-- Queue.create propagates a sequencer error before any write. -/
theorem queueCreate_err {s : St} {uid sid : Nat} {err : Err}
    (hge : generateQueueNumber s sid = .error err) :
    queueCreate s uid sid = (.error err, s) := by
  unfold queueCreate
  rw [hge]

/-- The sequencer answers on every resolvable service. -/
theorem generateQueueNumber_isOk {s : St} {sid : Nat} {sv : Service}
    (hsv : s.services.find? (fun v => v.id == sid) = some sv) :
    generateQueueNumber s sid = .ok (pfxOfService sv ++ "-" ++
      renderNextNumber (match lastById (matchingToday s sid (pfxOfService sv)) with
        | none => some 1
        | some e =>
          (parseIntJS ((jsSplitDash e.queueNumber).getD 1 "")).map (· + 1))) := by
  unfold generateQueueNumber
  rw [hsv]

/-- Queue.create on success: the INSERT of the new entry and the
`created` log row. -/
theorem queueCreate_ok_eq {s : St} {uid sid : Nat} {sv : Service} {qn : String}
    (hsv : s.services.find? (fun v => v.id == sid) = some sv)
    (hg : generateQueueNumber s sid = .ok qn) :
    queueCreate s uid sid =
      (.ok (mkEntry s uid sid (if sv.estTime == 0 then 5 else sv.estTime) qn),
       logAction
         { s with
           entries := s.entries ++
             [mkEntry s uid sid (if sv.estTime == 0 then 5 else sv.estTime) qn],
           nextId := s.nextId + 1, now := s.now + 1 }
         s.nextId sid none "created") := by
  unfold queueCreate mkEntry
  rw [hg, hsv]


/-! ### The claims -/

/-- C1.  The spec claims terminal immutability: once a ticket is
`completed` or `cancelled` every further transition attempt fails with
InvalidTransition and leaves the ticket unchanged.  The code enforces
this in `Queue.cancel` and `callNext` (which only selects `waiting`
entries), but `startServing` and `completeService` check only that the
entry's `counter_id` equals the acting counter and never read its
status: on the reachable store `stC1` — ticket `REG-001` cancelled by
its owner after having been called to counter 1 — `startServing` for
counter 1 succeeds and moves the cancelled ticket to `serving`. -/
theorem startServing_resurrects_cancelled :
    eCanc1.status = QStatus.cancelled ∧
    (startServing stC1 1 1).1 =
      .ok { eCanc1 with status := QStatus.serving, startedServingAt := some 102 } ∧
    (startServing stC1 1 1).2.entries.map QueueEntry.status = [QStatus.serving] :=
  ⟨rfl, rfl, rfl⟩

/-- C2 (counterexample).  The claim says the generated number is
`PREFIX-(max+1)` where max is the highest numeric suffix among the
day's matching tickets.  With configured prefix `A-1` and today's
tickets `A-1-001`, `A-1-002` (exactly what two sequential admissions
produce), the code splits the latest number on every dash and parses
the segment `"1"` that belongs to the prefix, yielding `A-1-002` again,
while the spec formula yields `A-1-003`. -/
theorem generateQueueNumber_ne_spec_on_dash :
    generateQueueNumber stDash 7 = .ok "A-1-002" ∧
    specNextTicketNumber stDash 7 = .ok "A-1-003" ∧
    ("A-1-002" : String) ≠ "A-1-003" :=
  ⟨rfl, rfl, by decide⟩

/-- C2 (amended).  The generated number is `PREFIX-(k+1)` zero-padded
to 3 digits, where `k` is parsed from the second dash-separated segment
of the most recently inserted (highest id) matching ticket of the day
(1 when there is none).  Whenever that parsed segment is the ticket's
true numeric suffix (e.g. the prefix contains no dash) and the suffix
of the latest ticket dominates the others (e.g. suffixes non-decreasing
in insertion order), this coincides with the spec's
`PREFIX-(max+1)` formula. -/
theorem generateQueueNumber_eq_spec_of_wellFormed (s : St) (serviceId : Nat)
    (sv : Service)
    (hsv : s.services.find? (fun v => v.id == serviceId) = some sv)
    (hseg : ∀ e ∈ matchingToday s serviceId (pfxOfService sv),
      parseIntJS ((jsSplitDash e.queueNumber).getD 1 "") =
        some (specSuffix (pfxOfService sv) e))
    (hmono : ∀ e1 ∈ matchingToday s serviceId (pfxOfService sv),
      ∀ e2 ∈ matchingToday s serviceId (pfxOfService sv),
      e1.id ≤ e2.id → specSuffix (pfxOfService sv) e1 ≤ specSuffix (pfxOfService sv) e2) :
    generateQueueNumber s serviceId = specNextTicketNumber s serviceId := by
  unfold generateQueueNumber specNextTicketNumber
  rw [hsv]
  cases hlast : lastById (matchingToday s serviceId (pfxOfService sv)) with
  | none =>
    have hnil := lastById_none hlast
    simp only [hlast, specMaxSuffix, hnil, List.map_nil, List.foldl_nil]
    rfl
  | some m =>
    obtain ⟨hm, hge⟩ := lastById_spec hlast
    have hmax : specMaxSuffix s serviceId (pfxOfService sv) =
        specSuffix (pfxOfService sv) m := by
      unfold specMaxSuffix
      refine le_antisymm ?_ ?_
      · refine foldl_max_le _ 0 _ (Nat.zero_le _) ?_
        intro x hx
        obtain ⟨e, he, rfl⟩ := List.mem_map.mp hx
        exact hmono e he m hm (hge e he)
      · exact foldl_max_ge_mem _ 0 _ (List.mem_map.mpr ⟨m, hm, rfl⟩)
    simp only [hlast, hseg m hm, Option.map_some', hmax]
    rfl

/-- C2 (witness).  On the store of `stBusy` — service Registrar with
tickets `REG-001`, `REG-002` — the hypotheses hold and the code agrees
with the spec formula, producing `REG-003`. -/
theorem generateQueueNumber_eq_spec_witness :
    generateQueueNumber stBusy 1 = specNextTicketNumber stBusy 1 ∧
    specNextTicketNumber stBusy 1 = .ok "REG-003" :=
  ⟨generateQueueNumber_eq_spec_of_wellFormed stBusy 1 svcREG rfl
      (by decide) (by decide),
   rfl⟩

/-- C3.  Next-waiting selection: when the service has a waiting entry,
`getNextWaitingQueue` returns a waiting entry of the service that is
minimal in (queue_position, requested_at); and two successive
successful `callNext` calls (the first of which claims the returned
ticket by setting it to `called`) return tickets with non-decreasing
keys. -/
theorem getNextWaiting_min_and_monotone (s : St) (sid : Nat)
    (hex : ∃ w ∈ s.entries, w.serviceId = sid ∧ w.status = QStatus.waiting) :
    (∃ e, getNextWaitingQueue s sid = some e ∧ e ∈ s.entries ∧
      e.serviceId = sid ∧ e.status = QStatus.waiting ∧
      ∀ x ∈ s.entries, x.serviceId = sid → x.status = QStatus.waiting →
        keyLtb x e = false) ∧
    (∀ cid e1 s1 e2 s2, callNext s cid = (.ok e1, s1) →
      callNext s1 cid = (.ok e2, s2) → keyLtb e2 e1 = false) := by
  constructor
  · obtain ⟨w, hw, hwsvc, hwst⟩ := hex
    have hwf : w ∈ s.entries.filter
        (fun e => e.serviceId == sid && e.status == QStatus.waiting) :=
      List.mem_filter.mpr ⟨hw, by simp [hwsvc, hwst]⟩
    obtain ⟨e, he⟩ :=
      Option.isSome_iff_exists.mp (selectMin_isSome (List.ne_nil_of_mem hwf))
    obtain ⟨hmem, hmin⟩ := selectMin_spec he
    rw [List.mem_filter] at hmem
    have hprops := hmem.2
    simp only [Bool.and_eq_true, beq_iff_eq] at hprops
    refine ⟨e, he, hmem.1, hprops.1, hprops.2, ?_⟩
    intro x hx hxs hxw
    exact hmin x (List.mem_filter.mpr ⟨hx, by simp [hxs, hxw]⟩)
  · intro cid e1 s1 e2 s2 h1 h2
    obtain ⟨c, nq, hc, hcl, hnq, he1, hs1⟩ := callNext_ok_shape h1
    obtain ⟨c2, nq2, hc2, hcl2, hnq2, he2, hs2⟩ := callNext_ok_shape h2
    have hctrs : s1.counters = s.counters.map ((fun c0 : Counter =>
        if c0.id == cid then { c0 with status := CStatus.cbusy } else c0) ∘
        (fun c0 : Counter =>
          if c0.id == cid then { c0 with currentServingQueueId := some nq.id }
          else c0)) := by
      rw [hs1]
      simp [logAction, updateCounterStatus, setCurrentServing, List.map_map]
    have hsvcs : s1.services = s.services := by
      rw [hs1]
      rfl
    have hents : s1.entries = s.entries.map (fun x =>
        if x.id == nq.id then
          { x with status := QStatus.called, counterId := some cid,
                   calledAt := some s.now }
        else x) := by
      rw [hs1]
      simp [logAction, updateCounterStatus, setCurrentServing]
    have hfid : ∀ x : Counter, (((fun c0 : Counter =>
        if c0.id == cid then { c0 with status := CStatus.cbusy } else c0) ∘
        (fun c0 : Counter =>
          if c0.id == cid then { c0 with currentServingQueueId := some nq.id }
          else c0)) x).id = x.id := by
      intro x
      by_cases hx : (x.id == cid) = true <;> simp [Function.comp, hx]
    have hfsid : ∀ x : Counter, (((fun c0 : Counter =>
        if c0.id == cid then { c0 with status := CStatus.cbusy } else c0) ∘
        (fun c0 : Counter =>
          if c0.id == cid then { c0 with currentServingQueueId := some nq.id }
          else c0)) x).serviceId = x.serviceId := by
      intro x
      by_cases hx : (x.id == cid) = true <;> simp [Function.comp, hx]
    have hcmap := counterFindById_counters_map hctrs hsvcs hfid hfsid hc
    injection hc2.symm.trans hcmap with hc2eq
    have hcsvc : c2.serviceId = c.serviceId := by
      rw [hc2eq]
      exact hfsid c
    obtain ⟨hmem2, -⟩ := selectMin_spec (show selectMin _ = some nq2 from hnq2)
    rw [List.mem_filter] at hmem2
    obtain ⟨hin2, hp2⟩ := hmem2
    rw [hents] at hin2
    obtain ⟨x, hx, hxe⟩ := List.mem_map.mp hin2
    by_cases hxid : (x.id == nq.id) = true
    · rw [if_pos hxid] at hxe
      rw [← hxe] at hp2
      simp at hp2
    · rw [if_neg (by simp [Bool.not_eq_true] at hxid ⊢; exact hxid)] at hxe
      subst hxe
      obtain ⟨-, hmin1⟩ := selectMin_spec (show selectMin _ = some nq from hnq)
      have hkey : keyLtb x nq = false := by
        apply hmin1
        apply List.mem_filter.mpr
        refine ⟨hx, ?_⟩
        rw [hcsvc] at hp2
        exact hp2
      rw [he1, he2]
      exact hkey

/-- C3 (witness).  On `stWait` (one waiting ticket `REG-001`) the
selection returns that ticket and it is key-minimal. -/
theorem getNextWaiting_min_and_monotone_witness :
    ∃ e, getNextWaitingQueue stWait 1 = some e ∧ e ∈ stWait.entries ∧
      e.serviceId = 1 ∧ e.status = QStatus.waiting ∧
      ∀ x ∈ stWait.entries, x.serviceId = 1 → x.status = QStatus.waiting →
        keyLtb x e = false :=
  (getNextWaiting_min_and_monotone stWait 1 ⟨wEntry, by decide, rfl, rfl⟩).1

/-- C4 (counterexample).  The claim says a call on a counter that is
already serving fails with CounterBusy.  On `stBusy` — counter 1 busy
with `current_serving_queue_id = 1` and `REG-002` waiting — `callNext`
has no such guard: it succeeds and silently overwrites the counter's
current serving reference with ticket 2. -/
theorem callNext_succeeds_while_busy :
    counterFindById stBusy 1 = some ⟨1, 1, CStatus.cbusy, some 1, true⟩ ∧
    (∃ e s2, callNext stBusy 1 = (.ok e, s2) ∧
      s2.counters = [⟨1, 1, CStatus.cbusy, some 2, true⟩]) :=
  ⟨rfl, ⟨_, _, rfl, rfl⟩⟩

/-- C4 (amended).  `callNext` succeeds only if the counter resolves and
its status is not `closed`; there is no busy guard (a call while
`current_serving_queue_id` is non-empty succeeds and overwrites it, as
the counterexample shows); and a successful call claims a previously
waiting ticket of the counter's own service. -/
theorem callNext_guards_characterization (s : St) (cid : Nat) :
    (counterFindById s cid = none → callNext s cid = (.error .counterNotFound, s)) ∧
    (∀ c, counterFindById s cid = some c → c.status = CStatus.cclosed →
      callNext s cid = (.error .counterClosed, s)) ∧
    (∀ e s2, callNext s cid = (.ok e, s2) →
      ∃ c, counterFindById s cid = some c ∧ c.status ≠ CStatus.cclosed ∧
        ∃ x ∈ s.entries, x.status = QStatus.waiting ∧ x.serviceId = c.serviceId ∧
          e = { x with status := QStatus.called, counterId := some cid,
                       calledAt := some s.now }) := by
  refine ⟨fun hc => callNext_ctr_none_eq hc, ?_, ?_⟩
  · intro c hc hcl
    exact callNext_closed_eq hc (by simp [hcl])
  · intro e s2 h
    obtain ⟨c, nq, hc, hcl, hnq, he, -⟩ := callNext_ok_shape h
    have hcl2 : c.status ≠ CStatus.cclosed := by
      intro hx
      rw [hx] at hcl
      simp at hcl
    obtain ⟨hmem, -⟩ := selectMin_spec (show selectMin _ = some nq from hnq)
    rw [List.mem_filter] at hmem
    have hprops := hmem.2
    simp only [Bool.and_eq_true, beq_iff_eq] at hprops
    exact ⟨c, hc, hcl2, nq, hmem.1, hprops.2, hprops.1, he⟩

/-- C4 (witness).  On `stWait` the open counter's call succeeds and the
characterization exhibits the claimed waiting ticket. -/
theorem callNext_guards_witness :
    ∃ c, counterFindById stWait 1 = some c ∧ c.status ≠ CStatus.cclosed ∧
      ∃ x ∈ stWait.entries, x.status = QStatus.waiting ∧ x.serviceId = c.serviceId ∧
        ({ wEntry with status := QStatus.called, counterId := some 1,
                       calledAt := some 101 } : QueueEntry) =
          { x with status := QStatus.called, counterId := some 1,
                   calledAt := some stWait.now } :=
  (callNext_guards_characterization stWait 1).2.2 _ _ rfl

/-- C5.  The spec's single-active-ticket invariant fails on the code.
The duplicate guard itself works (second request while `REG-001` is
waiting fails), but the missing status guard of `startServing` breaks
the invariant: after request → call → cancel → request, starting
service on the old cancelled ticket resurrects it, leaving user 1 with
two non-terminal tickets (`serving` and `waiting`) for service 1. -/
theorem resurrection_breaks_single_active :
    (requestQueue c5s1 1 1).1 = .error .duplicateActiveTicket ∧
    ((startServing c5s4 1 1).2.entries.map (fun e => (e.userId, e.status))) =
      [(1, QStatus.serving), (1, QStatus.waiting)] ∧
    ((startServing c5s4 1 1).2.entries.filter (fun e =>
      e.userId == 1 && e.serviceId == 1 && !(QStatus.terminal e.status))).length = 2 :=
  ⟨rfl, rfl, rfl⟩

/-- C6 (counterexample).  The claim says cancel succeeds exactly when
the owner acts and the ticket is `waiting` or `called`.  On
`stServing` the owner cancels their ticket that is already being
served (`serving` status) and the code accepts it. -/
theorem cancel_serving_succeeds :
    eServ ∈ stServing.entries ∧ eServ.status = QStatus.serving ∧
    (∃ e2 s2, cancelQueue stServing 1 1 = (.ok e2, s2) ∧
      e2.status = QStatus.cancelled) :=
  ⟨by decide, rfl, ⟨_, _, rfl, rfl⟩⟩

/-- C6 (amended).  On a store with unique entry ids, cancel succeeds
exactly when the acting user owns the ticket and its status is neither
`completed` nor `cancelled` (so `waiting`, `called` or `serving`); and
every failing cancel leaves the store unchanged. -/
theorem cancel_iff_owner_nonterminal (s : St) (qid uid : Nat)
    (hnd : (s.entries.map QueueEntry.id).Nodup) :
    ((∃ q ∈ s.entries, q.id = qid ∧ q.userId = uid ∧
        q.status ≠ QStatus.completed ∧ q.status ≠ QStatus.cancelled) ↔
      ∃ e2 s2, cancelQueue s qid uid = (.ok e2, s2)) ∧
    (∀ err, (cancelQueue s qid uid).1 = .error err →
      (cancelQueue s qid uid).2 = s) := by
  constructor
  · constructor
    · rintro ⟨q, hq, hid, huid, hc, hn⟩
      cases hf : s.entries.find? (fun e => e.id == qid && e.userId == uid) with
      | none =>
        have := List.find?_eq_none.mp hf q hq
        simp [hid, huid] at this
      | some q0 =>
        have hq0m := List.mem_of_find?_eq_some hf
        have hq0p := List.find?_some hf
        simp only [Bool.and_eq_true, beq_iff_eq] at hq0p
        have hqq0 : q = q0 :=
          List.inj_on_of_nodup_map hnd hq hq0m (by rw [hid, hq0p.1])
        subst hqq0
        have ht : (q.status == QStatus.completed ||
            q.status == QStatus.cancelled) = false := by
          simp only [Bool.or_eq_false_iff, beq_eq_false_iff_ne, ne_eq]
          exact ⟨hc, hn⟩
        exact ⟨_, _, cancelQueue_ok_eq hf ht⟩
    · rintro ⟨e2, s2, h⟩
      obtain ⟨q, hf, ht, -, -⟩ := cancelQueue_ok_shape h
      have hqm := List.mem_of_find?_eq_some hf
      have hqp := List.find?_some hf
      simp only [Bool.and_eq_true, beq_iff_eq] at hqp
      simp only [Bool.or_eq_false_iff, beq_eq_false_iff_ne, ne_eq] at ht
      exact ⟨q, hqm, hqp.1, hqp.2, ht.1, ht.2⟩
  · intro err h
    cases hf : s.entries.find? (fun e => e.id == qid && e.userId == uid) with
    | none => rw [cancelQueue_find_none hf]
    | some q =>
      cases ht : (q.status == QStatus.completed ||
          q.status == QStatus.cancelled) with
      | true => rw [cancelQueue_terminal hf ht]
      | false =>
        rw [cancelQueue_ok_eq hf ht] at h
        simp at h

/-- C6 (witness).  On `stServing` the characterization certifies the
owner's cancel of the serving ticket. -/
theorem cancel_iff_owner_nonterminal_witness :
    ∃ e2 s2, cancelQueue stServing 1 1 = (.ok e2, s2) :=
  (cancel_iff_owner_nonterminal stServing 1 1 (by decide)).1.mp
    ⟨eServ, by decide, rfl, rfl, by decide, by decide⟩

/-- C7 (counterexample).  The claim says the stored estimate equals the
service's base estimated service time times the position.  For a
service configured with estimated_service_time 0, the code's falsy
default `|| 5` stores `5 × position` instead of `0`. -/
theorem estimate_defaults_to_five :
    svcZero.estTime = 0 ∧
    (∃ e s2, requestQueue stZero 1 3 = (.ok e, s2) ∧
      e.estimatedWaitTime = 5 ∧ svcZero.estTime * e.queuePosition = 0) :=
  ⟨rfl, ⟨_, _, rfl, rfl, rfl⟩⟩

/-- C7 (amended).  On a store whose clock dominates every stored
`requested_at` (true of every reachable store), a successful admission
stores queue_position = (number of waiting tickets of the service) + 1
and estimated_wait_time = (base estimated service time, defaulting to 5
when the configured value is zero or missing) × position; and none of
callNext / startServing / completeService / cancelQueue ever changes
any entry's queue_position or estimated_wait_time. -/
theorem admission_position_estimate_frame :
    (∀ s uid sid e s2, requestQueue s uid sid = (.ok e, s2) →
      (∀ x ∈ s.entries, x.requestedAt < s.now) →
      ∃ sv, s.services.find? (fun v => v.id == sid) = some sv ∧
        sv ∈ s.services ∧ sv.id = sid ∧
        e.queuePosition = (s.entries.filter (fun x =>
          x.serviceId == sid && x.status == QStatus.waiting)).length + 1 ∧
        e.estimatedWaitTime =
          (if sv.estTime = 0 then 5 else sv.estTime) * e.queuePosition ∧
        e ∈ s2.entries) ∧
    (∀ s cid, ((callNext s cid).2.entries.map frozenFields) =
      s.entries.map frozenFields) ∧
    (∀ s cid qid, ((startServing s cid qid).2.entries.map frozenFields) =
      s.entries.map frozenFields) ∧
    (∀ s cid qid, ((completeService s cid qid).2.entries.map frozenFields) =
      s.entries.map frozenFields) ∧
    (∀ s qid uid, ((cancelQueue s qid uid).2.entries.map frozenFields) =
      s.entries.map frozenFields) := by
  refine ⟨?_, ?_, ?_, ?_, ?_⟩
  · intro s uid sid e s2 h hclock
    cases hm : s.maintenance with
    | true =>
      rw [requestQueue_maint hm] at h
      simp at h
    | false =>
      cases hsv : s.services.find? (fun v => v.id == sid) with
      | none =>
        rw [requestQueue_svc_none hm hsv] at h
        simp at h
      | some sv =>
        cases hact : sv.isActive with
        | false =>
          rw [requestQueue_inactive hm hsv hact] at h
          simp at h
        | true =>
          cases hdup : findByUserAndService s uid sid with
          | some q =>
            rw [requestQueue_dup hm hsv hact hdup] at h
            simp at h
          | none =>
            rw [requestQueue_pass hm hsv hact hdup] at h
            cases hg : generateQueueNumber s sid with
            | error e0 =>
              rw [queueCreate_err hg] at h
              simp at h
            | ok qn =>
              rw [queueCreate_ok_eq hsv hg] at h
              simp only [Prod.mk.injEq, Except.ok.injEq] at h
              obtain ⟨he, hs2⟩ := h
              subst he
              subst hs2
              have hposition : calculateQueuePosition s sid =
                  (s.entries.filter (fun x =>
                    x.serviceId == sid && x.status == QStatus.waiting)).length + 1 := by
                unfold calculateQueuePosition
                congr 1
                congr 1
                apply List.filter_congr
                intro x hx
                simp [hclock x hx]
              have hsvm := List.mem_of_find?_eq_some hsv
              have hsvid : sv.id = sid := by
                have hp := List.find?_some hsv
                exact beq_iff_eq.mp hp
              refine ⟨sv, rfl, hsvm, hsvid, hposition, ?_, ?_⟩
              · show (if sv.estTime == 0 then 5 else sv.estTime) *
                  calculateQueuePosition s sid =
                  (if sv.estTime = 0 then 5 else sv.estTime) *
                  calculateQueuePosition s sid
                by_cases h0 : sv.estTime = 0 <;> simp [h0]
              · show mkEntry s uid sid _ qn ∈ (logAction _ _ _ _ _).entries
                simp [logAction, mkEntry]
  · intro s cid
    cases hc : counterFindById s cid with
    | none => rw [callNext_ctr_none_eq hc]
    | some c =>
      cases hcl : (c.status == CStatus.cclosed) with
      | true => rw [callNext_closed_eq hc hcl]
      | false =>
        cases hnq : getNextWaitingQueue s c.serviceId with
        | none => rw [callNext_nowait_eq hc hcl hnq]
        | some nq =>
          rw [callNext_ok_eq hc hcl hnq]
          show ((s.entries.map _).map frozenFields) = _
          rw [List.map_map]
          apply List.map_congr_left
          intro x hx
          by_cases hxid : (x.id == nq.id) = true <;>
            simp [Function.comp, frozenFields, hxid]
  · intro s cid qid
    cases hc : counterFindById s cid with
    | none => rw [startServing_ctr_none hc]
    | some c =>
      cases hq : queueFindById s qid with
      | none => rw [startServing_q_none hc hq]
      | some qe =>
        by_cases hmatch : qe.counterId = some cid
        · rw [startServing_ok_eq hc hq hmatch]
          show ((s.entries.map _).map frozenFields) = _
          rw [List.map_map]
          apply List.map_congr_left
          intro x hx
          by_cases hxid : (x.id == qid) = true <;>
            simp [Function.comp, frozenFields, hxid]
        · rw [startServing_mismatch hc hq hmatch]
  · intro s cid qid
    cases hc : counterFindById s cid with
    | none => rw [completeService_ctr_none hc]
    | some c =>
      cases hq : queueFindById s qid with
      | none => rw [completeService_q_none hc hq]
      | some qe =>
        by_cases hmatch : qe.counterId = some cid
        · rw [completeService_ok_eq hc hq hmatch]
          show ((s.entries.map _).map frozenFields) = _
          rw [List.map_map]
          apply List.map_congr_left
          intro x hx
          by_cases hxid : (x.id == qid) = true <;>
            simp [Function.comp, frozenFields, hxid]
        · rw [completeService_mismatch hc hq hmatch]
  · intro s qid uid
    cases hf : s.entries.find? (fun e => e.id == qid && e.userId == uid) with
    | none => rw [cancelQueue_find_none hf]
    | some q =>
      cases ht : (q.status == QStatus.completed ||
          q.status == QStatus.cancelled) with
      | true => rw [cancelQueue_terminal hf ht]
      | false =>
        rw [cancelQueue_ok_eq hf ht]
        show ((s.entries.map _).map frozenFields) = _
        rw [List.map_map]
        apply List.map_congr_left
        intro x hx
        by_cases hxid : (x.id == qid) = true <;>
          simp [Function.comp, frozenFields, hxid]

/-- C7 (witness).  The first admission on `stBase` stores `REG-001`
with position 1 and estimate 10 × 1. -/
theorem admission_position_estimate_witness :
    ∃ sv, stBase.services.find? (fun v => v.id == 1) = some sv ∧
      sv ∈ stBase.services ∧ sv.id = 1 ∧
      wEntry.queuePosition = (stBase.entries.filter (fun x =>
        x.serviceId == 1 && x.status == QStatus.waiting)).length + 1 ∧
      wEntry.estimatedWaitTime =
        (if sv.estTime = 0 then 5 else sv.estTime) * wEntry.queuePosition ∧
      wEntry ∈ (requestQueue stBase 1 1).2.entries :=
  admission_position_estimate_frame.1 stBase 1 1 wEntry
    (requestQueue stBase 1 1).2 rfl (by decide)

/-- C8 (counterexample).  The claim says every failed operation leaves
the store exactly as before.  The write sequence of `callNext` is not
transactional: modelling a store failure right after the first write
(the queue-entry UPDATE), the operation reports an error while the
ticket is already `called` and the counter untouched — a visible
partial mutation. -/
theorem callNext_partial_mutation_on_store_failure :
    (callNextFuel stWait 1 1).1 = .error .storeFailure ∧
    (callNextFuel stWait 1 1).2.entries.map QueueEntry.status = [QStatus.called] ∧
    (callNextFuel stWait 1 1).2.counters = stWait.counters ∧
    stWait.entries.map QueueEntry.status = [QStatus.waiting] :=
  ⟨rfl, rfl, rfl, rfl⟩

/-- C8 (amended).  Every guard-failure error of the five operations —
i.e. every error in the run where the store itself never fails —
leaves the store exactly as it was; atomicity only breaks when the
store fails between the consecutive writes, as the counterexample
shows. -/
theorem guard_errors_leave_state_unchanged :
    (∀ s uid sid err, (requestQueue s uid sid).1 = .error err →
      (requestQueue s uid sid).2 = s) ∧
    (∀ s cid err, (callNext s cid).1 = .error err → (callNext s cid).2 = s) ∧
    (∀ s cid qid err, (startServing s cid qid).1 = .error err →
      (startServing s cid qid).2 = s) ∧
    (∀ s cid qid err, (completeService s cid qid).1 = .error err →
      (completeService s cid qid).2 = s) ∧
    (∀ s qid uid err, (cancelQueue s qid uid).1 = .error err →
      (cancelQueue s qid uid).2 = s) := by
  refine ⟨?_, ?_, ?_, ?_, ?_⟩
  · intro s uid sid err h
    cases hm : s.maintenance with
    | true => rw [requestQueue_maint hm]
    | false =>
      cases hsv : s.services.find? (fun v => v.id == sid) with
      | none => rw [requestQueue_svc_none hm hsv]
      | some sv =>
        cases hact : sv.isActive with
        | false => rw [requestQueue_inactive hm hsv hact]
        | true =>
          cases hdup : findByUserAndService s uid sid with
          | some q => rw [requestQueue_dup hm hsv hact hdup]
          | none =>
            rw [requestQueue_pass hm hsv hact hdup] at h ⊢
            cases hg : generateQueueNumber s sid with
            | error e0 => rw [queueCreate_err hg]
            | ok qn =>
              rw [queueCreate_ok_eq hsv hg] at h
              simp at h
  · intro s cid err h
    cases hc : counterFindById s cid with
    | none => rw [callNext_ctr_none_eq hc]
    | some c =>
      cases hcl : (c.status == CStatus.cclosed) with
      | true => rw [callNext_closed_eq hc hcl]
      | false =>
        cases hnq : getNextWaitingQueue s c.serviceId with
        | none => rw [callNext_nowait_eq hc hcl hnq]
        | some nq =>
          rw [callNext_ok_eq hc hcl hnq] at h
          simp at h
  · intro s cid qid err h
    cases hc : counterFindById s cid with
    | none => rw [startServing_ctr_none hc]
    | some c =>
      cases hq : queueFindById s qid with
      | none => rw [startServing_q_none hc hq]
      | some qe =>
        by_cases hmatch : qe.counterId = some cid
        · rw [startServing_ok_eq hc hq hmatch] at h
          simp at h
        · rw [startServing_mismatch hc hq hmatch]
  · intro s cid qid err h
    cases hc : counterFindById s cid with
    | none => rw [completeService_ctr_none hc]
    | some c =>
      cases hq : queueFindById s qid with
      | none => rw [completeService_q_none hc hq]
      | some qe =>
        by_cases hmatch : qe.counterId = some cid
        · rw [completeService_ok_eq hc hq hmatch] at h
          simp at h
        · rw [completeService_mismatch hc hq hmatch]
  · intro s qid uid err h
    cases hf : s.entries.find? (fun e => e.id == qid && e.userId == uid) with
    | none => rw [cancelQueue_find_none hf]
    | some q =>
      cases ht : (q.status == QStatus.completed ||
          q.status == QStatus.cancelled) with
      | true => rw [cancelQueue_terminal hf ht]
      | false =>
        rw [cancelQueue_ok_eq hf ht] at h
        simp at h

/-- C8 (witness).  A request under maintenance mode fails and leaves
the store untouched. -/
theorem guard_errors_witness :
    (requestQueue stMaint 1 1).1 = .error .systemUnavailable ∧
    (requestQueue stMaint 1 1).2 = stMaint :=
  ⟨rfl, guard_errors_leave_state_unchanged.1 stMaint 1 1 .systemUnavailable rfl⟩

/-- C9.  Uniqueness under concurrency fails: nothing in
`generateQueueNumber` or `Queue.create` locks the service row, so the
interleaving where both of two concurrent requests finish their reads
before either INSERT is schedulable, and on the empty Registrar day it
hands both users the same number `REG-001` on two distinct rows. -/
theorem race_duplicate_queue_numbers :
    ∃ p s2, requestQueueRace stBase 1 2 1 = (.ok p, s2) ∧
      p.1.queueNumber = "REG-001" ∧ p.2.queueNumber = "REG-001" ∧
      p.1.id ≠ p.2.id ∧
      (s2.entries.map QueueEntry.queueNumber) = ["REG-001", "REG-001"] :=
  ⟨_, _, rfl, rfl, rfl, by decide, rfl⟩

/-- C10.  A successful cancel is frame-exact: counters and services are
untouched (so a busy counter still references the now-cancelled
ticket), exactly one `cancelled` log row is appended, and every entry
of the new store is an old entry either unchanged or — for the
cancelled id — changed only in status and cancelled_at. -/
theorem cancel_frame (s : St) (qid uid : Nat) (e2 : QueueEntry) (s2 : St)
    (h : cancelQueue s qid uid = (.ok e2, s2)) :
    s2.counters = s.counters ∧ s2.services = s.services ∧
    (∃ q ∈ s.entries, q.id = qid ∧ q.userId = uid ∧
      s2.logs = s.logs ++ [⟨qid, q.serviceId, q.counterId, "cancelled"⟩]) ∧
    (∀ x ∈ s2.entries, ∃ y ∈ s.entries,
      (x = y ∨ (y.id = qid ∧
        x = { y with status := QStatus.cancelled, cancelledAt := some s.now }))) := by
  obtain ⟨q, hf, ht, he2, hs2⟩ := cancelQueue_ok_shape h
  have hqm := List.mem_of_find?_eq_some hf
  have hqp := List.find?_some hf
  simp only [Bool.and_eq_true, beq_iff_eq] at hqp
  subst hs2
  refine ⟨rfl, rfl, ⟨q, hqm, hqp.1, hqp.2, rfl⟩, ?_⟩
  intro x hx
  have hx2 : x ∈ s.entries.map (fun e =>
      if e.id == qid then
        { e with status := QStatus.cancelled, cancelledAt := some s.now }
      else e) := hx
  obtain ⟨y, hy, hxy⟩ := List.mem_map.mp hx2
  by_cases hyid : (y.id == qid) = true
  · refine ⟨y, hy, Or.inr ⟨beq_iff_eq.mp hyid, ?_⟩⟩
    rw [← hxy]
    simp [hyid]
  · refine ⟨y, hy, Or.inl ?_⟩
    rw [← hxy]
    simp [hyid]

/-- C10 (witness).  Cancelling the called ticket of `stBusy` leaves
counter 1 `busy` and still pointing at ticket 1, and appends the
`cancelled` log row. -/
theorem cancel_frame_witness :
    (cancelQueue stBusy 1 1).2.counters = stBusy.counters ∧
    (∃ q ∈ stBusy.entries, q.id = 1 ∧ q.userId = 1 ∧
      (cancelQueue stBusy 1 1).2.logs =
        stBusy.logs ++ [⟨1, q.serviceId, q.counterId, "cancelled"⟩]) :=
  ⟨(cancel_frame stBusy 1 1 _ _ rfl).1,
   (cancel_frame stBusy 1 1 _ _ rfl).2.2.1⟩

end QTech
